import Mathlib

/-!
Shallow embedding of the FII/DII dashboard's data pipeline (src/app.py):
the snapshot-to-table builder `process_data` and the analytics operations
`calculate_correlations`, `show_historical_trends` (rolling means),
`show_sentiment_analysis` and `show_volatility_analysis`.

Modelling conventions:
* a pandas cell is an `Option Val`: `none` is the missing marker (NaN, an
  absent key and an explicit null collapse to the one missing state, which
  is how every computation the claims touch treats them), `Val.num` is a
  numeric cell, `Val.str` a string cell; `Val.rt q` denotes the nonnegative
  square root of `q`, which represents the volatility cells exactly;
* a DataFrame is a `Table`: named columns in order, each a list of cells;
  a frame built from records learns its column set as the in-order union of
  the record keys, and a record lacking a key yields a missing cell;
* exceptions are `Except PErr`: pandas raising `KeyError` on a missing
  column, `pd.to_datetime` failing on a malformed date, and scipy `pearsonr`
  rejecting its input become the corresponding `PErr` values;
* `pearsonr`'s numeric output is a pure function of the sample it is handed,
  so the embedding represents each correlation result by that sample (the
  list of pairs), which is what every claim about correlation is about;
* `pd.to_datetime` is modelled by a parser of dash-separated calendar date
  strings (the format of the upstream feed's keys).
-/

inductive Val where
  | num (q : ℚ)
  | str (s : String)
  | rt (q : ℚ)
deriving DecidableEq

abbrev Col := List (Option Val)

abbrev Record := List (String × Option Val)

def numOf : Option Val → Option ℚ
  | some (Val.num q) => some q
  | _ => none

inductive PErr where
  | keyError
  | malformedDate
  | valueError
deriving DecidableEq

structure Table where
  cols : List (String × Col)
deriving DecidableEq

instance {ε α : Type} [DecidableEq ε] [DecidableEq α] : DecidableEq (Except ε α) := fun x y =>
  match x, y with
  | Except.ok a, Except.ok b =>
    if h : a = b then Decidable.isTrue (congrArg Except.ok h)
    else Decidable.isFalse (fun hc => h (Except.ok.inj hc))
  | Except.error a, Except.error b =>
    if h : a = b then Decidable.isTrue (congrArg Except.error h)
    else Decidable.isFalse (fun hc => h (Except.error.inj hc))
  | Except.ok _, Except.error _ => Decidable.isFalse (fun hc => Except.noConfusion hc)
  | Except.error _, Except.ok _ => Decidable.isFalse (fun hc => Except.noConfusion hc)

def lookupCol (cs : List (String × Col)) (n : String) : Option Col :=
  match cs with
  | [] => none
  | p :: rest => if p.1 == n then some p.2 else lookupCol rest n

/-- pandas `df[name] = series`: replace the column in place if the name
exists, otherwise append it as the last column. -/
def setColL (cs : List (String × Col)) (n : String) (c : Col) : List (String × Col) :=
  match cs with
  | [] => [(n, c)]
  | p :: rest => if p.1 == n then (p.1, c) :: rest else p :: setColL rest n c

def Table.getCol (t : Table) (n : String) : Option Col := lookupCol t.cols n

def Table.hasCol (t : Table) (n : String) : Bool := (t.getCol n).isSome

def Table.colD (t : Table) (n : String) : Col := (t.getCol n).getD []

def Table.setCol (t : Table) (n : String) (c : Col) : Table := ⟨setColL t.cols n c⟩

/-- pandas `len(df)`: the number of rows. -/
def Table.nrows (t : Table) : ℕ :=
  match t.cols with
  | [] => 0
  | p :: _ => p.2.length

/-- a well-formed frame: every column has the common row count. -/
def Table.wfb (t : Table) : Bool := t.cols.all (fun p => p.2.length == t.nrows)

/-- sort key of a cell for `sort_values`: numeric cells compare by value and
missing cells sort last. -/
def keyVal (v : Option Val) : Option ℚ := numOf v

def leKey (a b : Option Val) : Bool :=
  match keyVal a, keyVal b with
  | some x, some y => decide (x ≤ y)
  | some _, none => true
  | none, some _ => false
  | none, none => true

def lePairR (a b : Option Val × ℕ) : Prop := leKey a.1 b.1 = true

instance : DecidableRel lePairR := fun a b => Bool.decEq (leKey a.1 b.1) true

instance : IsTotal (Option Val × ℕ) lePairR := by
  constructor
  intro a b
  unfold lePairR leKey
  rcases ha : keyVal a.1 with _ | x <;> rcases hb : keyVal b.1 with _ | y <;> simp
  exact le_total x y

instance : IsTrans (Option Val × ℕ) lePairR := by
  constructor
  intro a b c hab hbc
  unfold lePairR leKey at *
  rcases ha : keyVal a.1 with _ | x <;> rcases hb : keyVal b.1 with _ | y <;>
    rcases hc : keyVal c.1 with _ | z <;> simp_all
  exact le_trans hab hbc

def applyPerm (σ : List ℕ) (c : Col) : Col := σ.map (fun i => (c.get? i).join)

/-- the row order produced by `sort_values` on the given key column: indices
of the rows, sorted by key. -/
def sortPerm (keys : Col) : List ℕ :=
  (List.insertionSort lePairR (keys.zip (List.range keys.length))).map Prod.snd

/-- pandas `df.sort_values('date')`: reorder every column by the row
permutation that sorts the date column ascending. -/
def Table.sortByDate (t : Table) : Table :=
  ⟨t.cols.map (fun p => (p.1, applyPerm (sortPerm (t.colD "date")) p.2))⟩

/-! ### The input model: one snapshot of the upstream feed

Every nested key of a daily record is optional, mirrored by `Option` at
each level exactly as `app.py` probes them with `in` tests and `.get`. -/

structure CashPart where
  buy : Option ℚ
  sell : Option ℚ
  buy_sell_difference : Option ℚ
  net_action : Option String
  net_view : Option String
  net_view_strength : Option String
deriving DecidableEq

structure CashSeg where
  fii : Option CashPart
  dii : Option CashPart
deriving DecidableEq

structure FutureQty where
  net_oi : Option ℚ
  net_action : Option String
  net_view : Option String
  net_view_strength : Option String
deriving DecidableEq

structure FutureAmt where
  net_oi : Option ℚ
  net_view : Option String
deriving DecidableEq

structure FuturePart where
  qty : Option FutureQty
  amt : Option FutureAmt
deriving DecidableEq

structure FutureSeg where
  fii : Option FuturePart
  dii : Option FuturePart
deriving DecidableEq

structure OptionPart where
  overall_net_oi : Option ℚ
  overall_net_oi_change_action : Option String
  overall_net_oi_change_view : Option String
  overall_net_oi_change_view_strength : Option String
deriving DecidableEq

structure OptionSeg where
  fii : Option OptionPart
  dii : Option OptionPart
deriving DecidableEq

structure DailyData where
  nifty : Option ℚ
  nifty_change_percent : Option ℚ
  banknifty : Option ℚ
  banknifty_change_percent : Option ℚ
  cash : Option CashSeg
  future : Option FutureSeg
  option : Option OptionSeg
deriving DecidableEq

/-- the deserialized API payload as `process_data` receives it; only the
`data` mapping is read by the builder, and the surrounding `Option` at the
call sites models a falsy `raw_data`. -/
structure Snapshot where
  data : Option (List (String × DailyData))
deriving DecidableEq

def cashFields (p : String) (c : CashPart) : Record :=
  [(p ++ "_cash_buy", c.buy.map Val.num),
   (p ++ "_cash_sell", c.sell.map Val.num),
   (p ++ "_cash_net", c.buy_sell_difference.map Val.num),
   (p ++ "_cash_action", c.net_action.map Val.str),
   (p ++ "_cash_view", c.net_view.map Val.str),
   (p ++ "_cash_view_strength", c.net_view_strength.map Val.str)]

def futureQtyFields (p : String) (q : FutureQty) : Record :=
  [(p ++ "_future_net_oi", q.net_oi.map Val.num),
   (p ++ "_future_action", q.net_action.map Val.str),
   (p ++ "_future_view", q.net_view.map Val.str),
   (p ++ "_future_view_strength", q.net_view_strength.map Val.str)]

def optionFields (p : String) (o : OptionPart) : Record :=
  [(p ++ "_option_overall_net_oi", o.overall_net_oi.map Val.num),
   (p ++ "_option_action", o.overall_net_oi_change_action.map Val.str),
   (p ++ "_option_view", o.overall_net_oi_change_view.map Val.str),
   (p ++ "_option_view_strength", o.overall_net_oi_change_view_strength.map Val.str)]

/-- the record-building loop body of `process_data`: one `(date, daily_data)`
pair becomes one flat record; a missing segment, participant or sub-view
contributes no keys at all, a `.get` with a present key but null value
contributes the key with a missing cell. -/
def normalizeRecord (date : String) (d : DailyData) : Record :=
  [("date", some (Val.str date)),
   ("nifty", d.nifty.map Val.num),
   ("nifty_change_percent", d.nifty_change_percent.map Val.num),
   ("banknifty", d.banknifty.map Val.num),
   ("banknifty_change_percent", d.banknifty_change_percent.map Val.num)]
  ++ (match d.cash with
      | none => []
      | some c =>
        (match c.fii with
         | none => []
         | some f => cashFields "fii" f)
        ++ (match c.dii with
            | none => []
            | some f => cashFields "dii" f))
  ++ (match d.future with
      | none => []
      | some fu =>
        (match fu.fii with
         | none => []
         | some fp =>
           (match fp.qty with
            | none => []
            | some q => futureQtyFields "fii" q)
           ++ (match fp.amt with
               | none => []
               | some a =>
                 [("fii_future_net_oi_amt", a.net_oi.map Val.num),
                  ("fii_future_view_amt", a.net_view.map Val.str)]))
        ++ (match fu.dii with
            | none => []
            | some dp =>
              match dp.qty with
              | none => []
              | some q => futureQtyFields "dii" q))
  ++ (match d.option with
      | none => []
      | some o =>
        (match o.fii with
         | none => []
         | some f => optionFields "fii" f)
        ++ (match o.dii with
            | none => []
            | some f => optionFields "dii" f))

def recordKeys (r : Record) : List String := r.map Prod.fst

/-- the column set `pd.DataFrame(records)` learns: the union of the record
keys, in order of first appearance. -/
def unionKeys (rs : List Record) : List String :=
  rs.foldl (fun acc r => acc ++ (recordKeys r).filter (fun k => !(acc.contains k))) []

/-- `pd.DataFrame(records)`: one column per learned key; a record lacking
the key yields a missing cell in that row. -/
def mkFrame (rs : List Record) : Table :=
  ⟨(unionKeys rs).map (fun k => (k, rs.map (fun r => (r.lookup k).join)))⟩

/-- splits a character list at every dash. -/
def splitDash (cs : List Char) : List (List Char) :=
  match cs with
  | [] => [[]]
  | c :: rest =>
    let r := splitDash rest
    if c = '-' then [] :: r
    else
      match r with
      | [] => [[c]]
      | g :: gs => (c :: g) :: gs

def digitsToNat (cs : List Char) : Option ℕ :=
  if cs = [] then none
  else
    cs.foldl
      (fun acc c =>
        match acc with
        | none => none
        | some n => if c.isDigit then some (n * 10 + (c.toNat - 48)) else none)
      (some 0)

/-- model of `pd.to_datetime` on one date string: a string parses exactly
when it is a dash-separated year-month-day with a valid month and day, and
the parsed date is encoded so that numeric order is chronological order. -/
def parseDate (s : String) : Option ℕ :=
  match splitDash s.toList with
  | [y, m, d] =>
    match digitsToNat y, digitsToNat m, digitsToNat d with
    | some yn, some mn, some dn =>
      if 1 ≤ mn ∧ mn ≤ 12 ∧ 1 ≤ dn ∧ dn ≤ 31 then
        some (yn * 10000 + mn * 100 + dn)
      else none
    | _, _, _ => none
  | _ => none

def parseCell : Option Val → Option ℚ
  | some (Val.str s) => (parseDate s).map (fun n => (n : ℚ))
  | _ => none

/-- element-wise traversal: the whole column converts only if every cell
does, as `pd.to_datetime` raises on the first malformed date. -/
def optTraverse (f : α → Option β) : List α → Option (List β)
  | [] => some []
  | a :: as =>
    match f a, optTraverse f as with
    | some b, some bs => some (b :: bs)
    | _, _ => none

/-- pandas `Series.cumsum()`: a running sum that skips missing cells (they
contribute nothing) and leaves the missing cells missing in the output.
The net columns it is applied to only ever hold numeric cells. -/
def cumsumFrom (acc : ℚ) : Col → Col
  | [] => []
  | v :: rest =>
    match v with
    | some (Val.num q) => some (Val.num (acc + q)) :: cumsumFrom (acc + q) rest
    | _ => none :: cumsumFrom acc rest

def cumsumCol (c : Col) : Col := cumsumFrom 0 c

/-- the guarded cumulative-column step of `process_data`. -/
def addCumulative (t : Table) (src dst : String) : Table :=
  if t.hasCol src then t.setCol dst (cumsumCol (t.colD src)) else t

/-- the tail of `process_data` once the frame exists and all dates parsed:
store the parsed dates, sort ascending, append the cumulative columns. -/
def finishTable (df : Table) (parsed : List ℚ) : Table :=
  let df1 := df.setCol "date" (parsed.map (fun q => some (Val.num q)))
  let df2 := df1.sortByDate
  let df3 := addCumulative df2 "fii_cash_net" "fii_cumulative_net"
  addCumulative df3 "dii_cash_net" "dii_cumulative_net"

/-- `process_data(raw_data)` of app.py: a falsy payload or one without a
`data` key yields an empty frame; otherwise the records are flattened,
`df['date'] = pd.to_datetime(df['date'])` runs (raising `KeyError` when the
record list is empty, because the empty frame has no columns at all), rows
are sorted by date ascending and the cumulative columns are appended. -/
def process_data (raw : Option Snapshot) : Except PErr Table :=
  match raw with
  | none => Except.ok ⟨[]⟩
  | some s =>
    match s.data with
    | none => Except.ok ⟨[]⟩
    | some entries =>
      match (mkFrame (entries.map (fun e => normalizeRecord e.1 e.2))).getCol "date" with
      | none => Except.error PErr.keyError
      | some dcol =>
        match optTraverse parseCell dcol with
        | none => Except.error PErr.malformedDate
        | some parsed =>
          Except.ok (finishTable (mkFrame (entries.map (fun e => normalizeRecord e.1 e.2))) parsed)

/-! ### Correlation -/

/-- `series.dropna()` of a numeric column. -/
def dropnaNum (c : Col) : List ℚ := c.filterMap numOf

/-- scipy `pearsonr(x, y)`: rejects samples of mismatched length and
samples shorter than 2 with a `ValueError`; otherwise its coefficient and
p-value are a function of the positionally zipped sample, by which the
result is represented here. -/
def pearsonrSample (xs ys : List ℚ) : Except PErr (List (ℚ × ℚ)) :=
  if xs.length ≠ ys.length then Except.error PErr.valueError
  else if xs.length < 2 then Except.error PErr.valueError
  else Except.ok (xs.zip ys)

/-- one guarded entry of `calculate_correlations`: present only when both
columns exist, and computed from the two independently `dropna`-ed columns
exactly as the source does. -/
def corrEntry (t : Table) (src tag : String) : Except PErr (List (String × List (ℚ × ℚ))) :=
  if t.hasCol src && t.hasCol "nifty_change_percent" then do
    let ps ← pearsonrSample (dropnaNum (t.colD src)) (dropnaNum (t.colD "nifty_change_percent"))
    pure [(tag, ps)]
  else pure []

/-- `calculate_correlations(df)` of app.py. -/
def calculate_correlations (t : Table) : Except PErr (List (String × List (ℚ × ℚ))) := do
  let e1 ← corrEntry t "fii_cash_net" "fii_net_vs_nifty"
  let e2 ← corrEntry t "dii_cash_net" "dii_net_vs_nifty"
  pure (e1 ++ e2)

/-- the spec's pairwise-complete-case policy, for comparison with the
source: the date-aligned pairs of rows in which both values are present. -/
def alignedPairs (x y : Col) : List (ℚ × ℚ) :=
  (x.zip y).filterMap (fun p =>
    match numOf p.1, numOf p.2 with
    | some a, some b => some (a, b)
    | _, _ => none)

/-! ### Rolling statistics -/

/-- the trailing window of at most `w` cells ending at position `i`. -/
def windowVals (w : ℕ) (c : Col) (i : ℕ) : List (Option Val) :=
  (c.take (i + 1)).drop (i + 1 - w)

/-- pandas `series.rolling(w).mean()` with the default `min_periods = w`:
the mean of the window's present values, emitted only when the window holds
`w` present values, and missing otherwise. -/
def rollingMean (w : ℕ) (c : Col) : Col :=
  (List.range c.length).map (fun i =>
    let vals := (windowVals w c i).filterMap numOf
    if vals.length < w then none else some (Val.num (vals.sum / (w : ℚ))))

/-- the shrinking-window mean the spec describes, for comparison with the
source: the mean of however many present values the window holds. -/
def shrinkMean (w : ℕ) (c : Col) (i : ℕ) : Option Val :=
  let vals := (windowVals w c i).filterMap numOf
  if vals.length = 0 then none
  else some (Val.num (vals.sum / (vals.length : ℚ)))

/-- the `if len(df) >= 7` step: add the 7-day moving average column to the
local sorted frame `s` only when it has at least 7 rows. -/
def ma7Step (s : Table) (metric : String) : Table :=
  if 7 ≤ s.nrows then s.setCol "7_day_ma" (rollingMean 7 (s.colD metric)) else s

/-- the `if len(df) >= 30` step on the frame `s1` produced by the 7-day
step; the row count tested is that of the frame, unchanged by adding a
column. -/
def ma30Step (s s1 : Table) (metric : String) : Table :=
  if 30 ≤ s.nrows then s1.setCol "30_day_ma" (rollingMean 30 (s1.colD metric)) else s1

/-- `show_historical_trends(df, metric, ...)` of app.py, as the frame it
plots from: an early return when the metric column is absent (the caller's
frame is handed back untouched), otherwise the local sorted copy produced
by `df = df.sort_values('date')` — so the caller's frame is never written —
with the moving-average columns added only when enough rows exist. Reading
a missing `date` column raises `KeyError`. -/
def show_historical_trends (df : Table) (metric : String) : Except PErr Table :=
  if df.hasCol metric then
    match df.getCol "date" with
    | none => Except.error PErr.keyError
    | some _ =>
      Except.ok (ma30Step df.sortByDate (ma7Step df.sortByDate metric) metric)
  else Except.ok df

/-! ### Sentiment -/

/-- `series.map({'BULLISH': 1, 'BEARISH': -1, None: 0})`: the dict lookup
hits its three keys, and every other value maps to a missing cell, since a
key absent from a dict mapper yields NaN. -/
def viewScore (v : Option Val) : Option Val :=
  if v = some (Val.str "BULLISH") then some (Val.num 1)
  else if v = some (Val.str "BEARISH") then some (Val.num (-1))
  else if v = none then some (Val.num 0)
  else none

/-- the same mapping stated by cases on the cell, for the amended claim. -/
def viewScoreSpec (c : Option Val) : Option Val :=
  match c with
  | some (Val.str s) =>
    if s = "BULLISH" then some (Val.num 1)
    else if s = "BEARISH" then some (Val.num (-1))
    else none
  | none => some (Val.num 0)
  | some (Val.num _) => none
  | some (Val.rt _) => none

/-- `show_sentiment_analysis(df)` of app.py, as the caller-visible frame:
the function returns early when `fii_cash_view` is absent; otherwise it
assigns the FII score column in place on the frame it was passed, then
reads `df['dii_cash_view']` — raising `KeyError` when that column does not
exist — and assigns the DII score column in place. -/
def show_sentiment_analysis (df : Table) : Except PErr Table :=
  if df.hasCol "fii_cash_view" then
    match (df.setCol "fii_sentiment_score" ((df.colD "fii_cash_view").map viewScore)).getCol
        "dii_cash_view" with
    | none => Except.error PErr.keyError
    | some dv =>
      Except.ok
        ((df.setCol "fii_sentiment_score"
            ((df.colD "fii_cash_view").map viewScore)).setCol "dii_sentiment_score"
          (dv.map viewScore))
  else Except.ok df

/-! ### Volatility -/

/-- sample variance with the pandas default `ddof = 1`. -/
def sampleVar (xs : List ℚ) : ℚ :=
  if xs.length ≤ 1 then 0
  else
    ((xs.map (fun x => (x - xs.sum / (xs.length : ℚ)) ^ 2)).sum) / ((xs.length : ℚ) - 1)

/-- `series.rolling(5).std() * np.sqrt(5)` generalized to `w`: the sample
standard deviation over a full window scaled by the square root of the
window length; `std * sqrt w` is `sqrt (var * w)`, stored exactly as a
`Val.rt` cell. Default `min_periods` applies as for the rolling mean. -/
def rollingStdScaled (w : ℕ) (c : Col) : Col :=
  (List.range c.length).map (fun i =>
    let vals := (windowVals w c i).filterMap numOf
    if vals.length < w then none else some (Val.rt (sampleVar vals * (w : ℚ))))

/-- `show_volatility_analysis(df)` of app.py, as the caller-visible frame:
an early return when `nifty_change_percent` is absent, otherwise the
volatility column is assigned in place on the frame passed in (the FII
flow series it also plots is never stored). -/
def show_volatility_analysis (df : Table) : Table :=
  if df.hasCol "nifty_change_percent" then
    df.setCol "nifty_volatility" (rollingStdScaled 5 (df.colD "nifty_change_percent"))
  else df

/-- the value the builder's cumulative column should hold at row `i` under
the code's skip-missing running sum: the sum of the present net values up
to and including row `i` when row `i` itself is present, missing when row
`i` is missing. -/
def cumSpec (c : Col) (i : ℕ) : Option Val :=
  match (c.get? i).join with
  | some (Val.num _) => some (Val.num (((c.take (i + 1)).filterMap numOf).sum))
  | _ => none

/-! ### Concrete inputs used to settle the claims -/

/-- a table whose two numeric columns are missing values on different rows:
row 1 lacks the FII net, row 2 lacks the index change. -/
def cexT1 : Table :=
  ⟨[("fii_cash_net", [some (Val.num 1), none, some (Val.num 3)]),
    ("nifty_change_percent", [some (Val.num 5), some (Val.num 1), none])]⟩

/-- a daily record with no segments and no index values at all. -/
def ddBlank : DailyData := ⟨none, none, none, none, none, none, none⟩

/-- a daily record carrying only an FII cash block with the given net. -/
def ddFiiNet (q : ℚ) : DailyData :=
  ⟨none, none, none, none, some ⟨some ⟨none, none, some q, none, none, none⟩, none⟩, none, none⟩

/-- three dates, unsorted on input, with the middle date missing its FII
cash block entirely. -/
def snapC3 : Snapshot :=
  ⟨some [("2025-03-07", ddBlank), ("2025-03-06", ddFiiNet 1000), ("2025-03-08", ddFiiNet 500)]⟩

/-- the table `process_data` builds from `snapC3`. -/
def tblC3 : Table := (process_data (some snapC3)).toOption.getD ⟨[]⟩

/-- a one-row table whose FII view cell is the empty string. -/
def cexT4 : Table :=
  ⟨[("fii_cash_view", [some (Val.str "")]), ("dii_cash_view", [none])]⟩

/-- a table exercising all four sentiment cases. -/
def c4wDf : Table :=
  ⟨[("fii_cash_view",
     [some (Val.str "BULLISH"), some (Val.str "BEARISH"), none, some (Val.str "")]),
    ("dii_cash_view", [none, some (Val.str "BULLISH"), some (Val.str "X"), none])]⟩

/-- the caller-visible table after sentiment analysis of `c4wDf`. -/
def c4wT : Table := (show_sentiment_analysis c4wDf).toOption.getD ⟨[]⟩

/-- seven sorted rows whose last metric value is missing. -/
def cexT5 : Table :=
  ⟨[("date", (List.range 7).map (fun i => some (Val.num i))),
    ("fii_cash_net",
     [some (Val.num 1), some (Val.num 1), some (Val.num 1), some (Val.num 1),
      some (Val.num 1), some (Val.num 1), none])]⟩

/-- seven sorted rows with all metric values present. -/
def c5wDf : Table :=
  ⟨[("date", (List.range 7).map (fun i => some (Val.num i))),
    ("fii_cash_net",
     [some (Val.num 1), some (Val.num 2), some (Val.num 3), some (Val.num 4),
      some (Val.num 5), some (Val.num 6), some (Val.num 7)])]⟩

/-- the frame `show_historical_trends` plots from for `c5wDf`. -/
def c5wT : Table := (show_historical_trends c5wDf "fii_cash_net").toOption.getD ⟨[]⟩

/-- a column of seven cells with one missing value. -/
def c5wMissCol : Col :=
  [some (Val.num 1), some (Val.num 1), some (Val.num 1), some (Val.num 1),
   some (Val.num 1), none, some (Val.num 1)]

/-- the frame `show_historical_trends` plots from for `c5wDf`, reused as the
exactly-seven-row witness for the rolling gate. -/
def c6wT : Table := (show_historical_trends c5wDf "fii_cash_net").toOption.getD ⟨[]⟩

/-- a one-row table giving one valid pair, fewer than the two scipy needs. -/
def t7a : Table :=
  ⟨[("fii_cash_net", [some (Val.num 1)]), ("nifty_change_percent", [some (Val.num 2)])]⟩

/-- a one-row table whose FII net is missing, so its dropna sample is empty. -/
def t7w : Table :=
  ⟨[("fii_cash_net", [none]), ("nifty_change_percent", [some (Val.num 1)])]⟩

/-- a snapshot with one unparseable date key. -/
def snapC8bad : Snapshot := ⟨some [("banana", ddBlank)]⟩

/-- a snapshot of two parseable dates arriving out of order. -/
def snapC8good : Snapshot := ⟨some [("2025-03-07", ddBlank), ("2025-03-06", ddBlank)]⟩

/-- a one-row table carrying only the index-change column. -/
def vT9 : Table := ⟨[("nifty_change_percent", [some (Val.num 1)])]⟩

/-- a one-row table with both view columns, for the sentiment frame check. -/
def c9sDf : Table :=
  ⟨[("nifty", [some (Val.num 10)]),
    ("fii_cash_view", [some (Val.str "BULLISH")]),
    ("dii_cash_view", [some (Val.str "BEARISH")])]⟩

/-- the caller-visible table after sentiment analysis of `c9sDf`. -/
def c9sT : Table := (show_sentiment_analysis c9sDf).toOption.getD ⟨[]⟩

/-- a snapshot whose one record has an FII cash block but no DII block, so
the built table has `fii_cash_view` and no `dii_cash_view`. -/
def snapC10 : Snapshot :=
  ⟨some [("2025-03-06",
    ⟨none, none, none, none,
     some ⟨some ⟨none, none, some 10, none, some "BULLISH", none⟩, none⟩, none, none⟩)]⟩

/-! ### Helper lemmas about the frame primitives -/

theorem lookupCol_setColL_self (cs : List (String × Col)) (n : String) (c : Col) :
    lookupCol (setColL cs n c) n = some c := by
  induction cs with
  | nil => simp [setColL, lookupCol]
  | cons p rest ih =>
    by_cases h : (p.1 == n) = true
    · simp [setColL, h, lookupCol]
    · simp only [setColL, h, Bool.false_eq_true, if_false, lookupCol]
      simp [h, ih]

theorem lookupCol_setColL_ne (cs : List (String × Col)) (n m : String) (c : Col)
    (h : m ≠ n) : lookupCol (setColL cs n c) m = lookupCol cs m := by
  have hnm : (n == m) = false := by
    simp only [beq_eq_false_iff_ne, ne_eq]
    exact fun h' => h h'.symm
  induction cs with
  | nil => simp [setColL, lookupCol, hnm]
  | cons p rest ih =>
    by_cases hp : (p.1 == n) = true
    · have hpn : p.1 = n := by simpa [beq_iff_eq] using hp
      simp [setColL, hp, lookupCol, hpn, hnm]
    · by_cases hm : (p.1 == m) = true
      · simp [setColL, hp, lookupCol, hm]
      · simp [setColL, hp, lookupCol, hm, ih]

theorem getCol_setCol_self (t : Table) (n : String) (c : Col) :
    (t.setCol n c).getCol n = some c :=
  lookupCol_setColL_self t.cols n c

theorem getCol_setCol_ne (t : Table) (n m : String) (c : Col) (h : m ≠ n) :
    (t.setCol n c).getCol m = t.getCol m :=
  lookupCol_setColL_ne t.cols n m c h

theorem hasCol_setCol_ne (t : Table) (n m : String) (c : Col) (h : m ≠ n) :
    (t.setCol n c).hasCol m = t.hasCol m := by
  unfold Table.hasCol
  rw [getCol_setCol_ne t n m c h]

theorem colD_setCol_self (t : Table) (n : String) (c : Col) :
    (t.setCol n c).colD n = c := by
  unfold Table.colD
  rw [getCol_setCol_self]
  rfl

theorem colD_setCol_ne (t : Table) (n m : String) (c : Col) (h : m ≠ n) :
    (t.setCol n c).colD m = t.colD m := by
  unfold Table.colD
  rw [getCol_setCol_ne t n m c h]

theorem lookupCol_mapCols (cs : List (String × Col)) (f : Col → Col) (n : String) :
    lookupCol (cs.map (fun p => (p.1, f p.2))) n = (lookupCol cs n).map f := by
  induction cs with
  | nil => simp [lookupCol]
  | cons p rest ih =>
    by_cases hp : (p.1 == n) = true
    · simp [lookupCol, hp]
    · simp [lookupCol, hp, ih]

theorem getCol_sortByDate (t : Table) (n : String) :
    (t.sortByDate).getCol n =
      (t.getCol n).map (applyPerm (sortPerm (t.colD "date"))) :=
  lookupCol_mapCols t.cols _ n

theorem hasCol_sortByDate (t : Table) (n : String) :
    (t.sortByDate).hasCol n = t.hasCol n := by
  unfold Table.hasCol
  rw [getCol_sortByDate]
  cases t.getCol n <;> rfl

theorem colD_sortByDate_of_has (t : Table) (n : String) (c : Col) (h : t.getCol n = some c) :
    (t.sortByDate).colD n = applyPerm (sortPerm (t.colD "date")) c := by
  unfold Table.colD
  rw [getCol_sortByDate, h]
  rfl

theorem getCol_addCumulative_ne (t : Table) (src dst m : String) (h : m ≠ dst) :
    (addCumulative t src dst).getCol m = t.getCol m := by
  unfold addCumulative
  split
  · exact getCol_setCol_ne t dst m _ h
  · rfl

theorem hasCol_addCumulative_ne (t : Table) (src dst m : String) (h : m ≠ dst) :
    (addCumulative t src dst).hasCol m = t.hasCol m := by
  unfold Table.hasCol
  rw [getCol_addCumulative_ne t src dst m h]

theorem colD_addCumulative_ne (t : Table) (src dst m : String) (h : m ≠ dst) :
    (addCumulative t src dst).colD m = t.colD m := by
  unfold Table.colD
  rw [getCol_addCumulative_ne t src dst m h]

theorem getCol_addCumulative_self (t : Table) (src dst : String) (h : t.hasCol src = true) :
    (addCumulative t src dst).getCol dst = some (cumsumCol (t.colD src)) := by
  unfold addCumulative
  rw [if_pos h]
  exact getCol_setCol_self t dst _

theorem length_applyPerm (σ : List ℕ) (c : Col) : (applyPerm σ c).length = σ.length := by
  simp [applyPerm]

theorem length_sortPerm (keys : Col) : (sortPerm keys).length = keys.length := by
  simp [sortPerm, List.length_insertionSort]

theorem lookupCol_mem (cs : List (String × Col)) (n : String) (c : Col)
    (h : lookupCol cs n = some c) : ∃ p ∈ cs, p.2 = c := by
  induction cs with
  | nil => simp [lookupCol] at h
  | cons p rest ih =>
    by_cases hp : (p.1 == n) = true
    · simp only [lookupCol, hp, if_true] at h
      exact ⟨p, List.mem_cons_self p rest, Option.some.inj h⟩
    · simp only [lookupCol, hp, Bool.false_eq_true, if_false] at h
      obtain ⟨q, hq, hq2⟩ := ih h
      exact ⟨q, List.mem_cons_of_mem p hq, hq2⟩

theorem length_of_wfb (t : Table) (n : String) (c : Col)
    (hwf : t.wfb = true) (h : t.getCol n = some c) : c.length = t.nrows := by
  obtain ⟨p, hp, hp2⟩ := lookupCol_mem t.cols n c h
  have := (List.all_eq_true.mp hwf) p hp
  rw [hp2] at this
  simpa using this

theorem nrows_sortByDate (t : Table) (hne : t.cols ≠ []) :
    (t.sortByDate).nrows = (t.colD "date").length := by
  unfold Table.sortByDate Table.nrows
  cases hc : t.cols with
  | nil => exact absurd hc hne
  | cons p rest =>
    simp only [List.map_cons]
    rw [length_applyPerm, length_sortPerm]

theorem optTraverse_none_of_mem {α β : Type} (f : α → Option β) (l : List α) (a : α)
    (ha : a ∈ l) (hf : f a = none) : optTraverse f l = none := by
  induction l with
  | nil => cases ha
  | cons b bs ih =>
    rcases List.mem_cons.mp ha with rfl | hmem
    · simp [optTraverse, hf]
    · cases hb : f b
      · simp [optTraverse, hb]
      · simp [optTraverse, hb, ih hmem]

theorem optTraverse_isSome_of_all {α β : Type} (f : α → Option β) (l : List α)
    (h : ∀ a ∈ l, (f a).isSome = true) : ∃ bs, optTraverse f l = some bs := by
  induction l with
  | nil => exact ⟨[], rfl⟩
  | cons b bs ih =>
    obtain ⟨v, hv⟩ := Option.isSome_iff_exists.mp (h b (List.mem_cons_self b bs))
    obtain ⟨vs, hvs⟩ := ih (fun a ha => h a (List.mem_cons_of_mem b ha))
    exact ⟨v :: vs, by simp [optTraverse, hv, hvs]⟩

theorem length_filterMap_of_all {α β : Type} (f : α → Option β) (l : List α)
    (h : ∀ a ∈ l, (f a).isSome = true) : (l.filterMap f).length = l.length := by
  induction l with
  | nil => rfl
  | cons b bs ih =>
    obtain ⟨v, hv⟩ := Option.isSome_iff_exists.mp (h b (List.mem_cons_self b bs))
    simp [List.filterMap_cons, hv, ih (fun a ha => h a (List.mem_cons_of_mem b ha))]

theorem length_filterMap_lt_of_mem_none {α β : Type} (f : α → Option β) (l : List α) (a : α)
    (ha : a ∈ l) (hf : f a = none) : (l.filterMap f).length < l.length := by
  induction l with
  | nil => cases ha
  | cons b bs ih =>
    rcases List.mem_cons.mp ha with rfl | hmem
    · simp only [List.filterMap_cons, hf, List.length_cons]
      have := List.length_filterMap_le f bs
      omega
    · cases hb : f b
      · simp only [List.filterMap_cons, hb, List.length_cons]
        have := List.length_filterMap_le f bs
        omega
      · simp only [List.filterMap_cons, hb, List.length_cons]
        exact Nat.succ_lt_succ (ih hmem)

theorem windowVals_length (w : ℕ) (c : Col) (i : ℕ) (hi : i < c.length) :
    (windowVals w c i).length = (i + 1) - (i + 1 - w) := by
  unfold windowVals
  rw [List.length_drop, List.length_take]
  congr 1
  omega

theorem rollingMean_get?_full (w : ℕ) (c : Col) (i : ℕ) (hi : i < c.length) (hw : w ≤ i + 1)
    (hall : ∀ v ∈ windowVals w c i, (numOf v).isSome = true) :
    (rollingMean w c).get? i =
      some (some (Val.num (((windowVals w c i).filterMap numOf).sum / (w : ℚ)))) := by
  unfold rollingMean
  rw [List.get?_map, List.get?_range hi]
  have hlen : ((windowVals w c i).filterMap numOf).length = w := by
    rw [length_filterMap_of_all _ _ hall, windowVals_length w c i hi]
    omega
  rw [Option.map_some']
  rw [if_neg (by rw [hlen]; exact Nat.lt_irrefl w)]

theorem rollingMean_get?_missing (w : ℕ) (c : Col) (i : ℕ) (hi : i < c.length)
    (hex : ∃ v ∈ windowVals w c i, numOf v = none) :
    (rollingMean w c).get? i = some none := by
  unfold rollingMean
  rw [List.get?_map, List.get?_range hi]
  obtain ⟨v, hv, hvn⟩ := hex
  have hlt : ((windowVals w c i).filterMap numOf).length < w := by
    calc ((windowVals w c i).filterMap numOf).length
        < (windowVals w c i).length := length_filterMap_lt_of_mem_none _ _ v hv hvn
      _ = (i + 1) - (i + 1 - w) := windowVals_length w c i hi
      _ ≤ w := by omega
  rw [Option.map_some']
  rw [if_pos hlt]

theorem length_cumsumFrom (acc : ℚ) (c : Col) : (cumsumFrom acc c).length = c.length := by
  induction c generalizing acc with
  | nil => rfl
  | cons v rest ih =>
    cases v with
    | none => simp [cumsumFrom, ih]
    | some w =>
      cases w with
      | num q => simp [cumsumFrom, ih]
      | str s => simp [cumsumFrom, ih]
      | rt q => simp [cumsumFrom, ih]

theorem cumsumFrom_get? (c : Col) (acc : ℚ) (i : ℕ) (hi : i < c.length) :
    (cumsumFrom acc c).get? i =
      some (match (c.get? i).join with
            | some (Val.num _) => some (Val.num (acc + ((c.take (i + 1)).filterMap numOf).sum))
            | _ => none) := by
  induction c generalizing acc i with
  | nil => cases hi
  | cons v rest ih =>
    cases i with
    | zero =>
      cases v with
      | none => simp [cumsumFrom, numOf]
      | some w =>
        cases w with
        | num q => simp [cumsumFrom, numOf]
        | str s => simp [cumsumFrom, numOf]
        | rt q => simp [cumsumFrom, numOf]
    | succ j =>
      have hj : j < rest.length := by simpa using hi
      cases v with
      | none =>
        simp only [cumsumFrom, List.get?_cons_succ, List.take_succ_cons,
          List.filterMap_cons]
        rw [ih acc j hj]
        rfl
      | some w =>
        cases w with
        | num q =>
          simp only [cumsumFrom, List.get?_cons_succ, List.take_succ_cons,
            List.filterMap_cons]
          rw [ih (acc + q) j hj]
          have : ∀ s : ℚ, acc + q + s = acc + (q + s) := by intro s; ring
          cases hrj : (rest.get? j).join with
          | none => rfl
          | some u =>
            cases u with
            | num p => simp [numOf, this]
            | str s => rfl
            | rt p => rfl
        | str s =>
          simp only [cumsumFrom, List.get?_cons_succ, List.take_succ_cons,
            List.filterMap_cons]
          rw [ih acc j hj]
          rfl
        | rt q =>
          simp only [cumsumFrom, List.get?_cons_succ, List.take_succ_cons,
            List.filterMap_cons]
          rw [ih acc j hj]
          rfl

theorem cumsumCol_get? (c : Col) (i : ℕ) (hi : i < c.length) :
    (cumsumCol c).get? i = some (cumSpec c i) := by
  unfold cumsumCol cumSpec
  rw [cumsumFrom_get? c 0 i hi]
  cases (c.get? i).join with
  | none => rfl
  | some u =>
    cases u with
    | num q => simp
    | str s => rfl
    | rt q => rfl

theorem get?_of_mem_zip_range {α : Type} (l : List α) (p : α × ℕ)
    (h : p ∈ l.zip (List.range l.length)) : l.get? p.2 = some p.1 := by
  induction l generalizing p with
  | nil => cases h
  | cons a as ih =>
    rw [List.length_cons, List.range_succ_eq_map, List.zip_cons_cons,
      List.zip_map_right] at h
    rcases List.mem_cons.mp h with rfl | hmem
    · rfl
    · obtain ⟨q, hq, rfl⟩ := List.mem_map.mp hmem
      simpa using ih q hq

theorem pairwise_applyPerm_sortPerm (keys : Col) :
    (applyPerm (sortPerm keys) keys).Pairwise (fun a b => leKey a b = true) := by
  unfold applyPerm sortPerm
  rw [List.map_map]
  have hperm := List.perm_insertionSort lePairR (keys.zip (List.range keys.length))
  have hmem : ∀ p ∈ List.insertionSort lePairR (keys.zip (List.range keys.length)),
      ((fun i => (keys.get? i).join) ∘ Prod.snd) p = p.1 := by
    intro p hp
    have hg := get?_of_mem_zip_range keys p (hperm.mem_iff.mp hp)
    show (keys.get? p.2).join = p.1
    rw [hg]
    rfl
  rw [List.map_congr_left hmem]
  have hs := List.sorted_insertionSort lePairR (keys.zip (List.range keys.length))
  exact hs.map Prod.fst (fun a b hab => hab)

theorem mem_unionKeys_foldl (rs : List Record) (acc : List String) (x : String)
    (hx : x ∈ acc) :
    x ∈ rs.foldl (fun a r => a ++ (recordKeys r).filter (fun k => !(a.contains k))) acc := by
  induction rs generalizing acc with
  | nil => exact hx
  | cons r rest ih =>
    exact ih _ (List.mem_append_left _ hx)

theorem mem_unionKeys_head (r : Record) (rest : List Record) (k : String)
    (hk : k ∈ recordKeys r) : k ∈ unionKeys (r :: rest) := by
  unfold unionKeys
  rw [List.foldl_cons]
  apply mem_unionKeys_foldl
  simpa using hk

theorem lookupCol_keyMap (ks : List String) (g : String → Col) (n : String) (h : n ∈ ks) :
    lookupCol (ks.map (fun k => (k, g k))) n = some (g n) := by
  induction ks with
  | nil => cases h
  | cons k rest ih =>
    by_cases hk : (k == n) = true
    · have : k = n := by simpa [beq_iff_eq] using hk
      subst this
      simp [lookupCol]
    · have hne : n ≠ k := fun h' => hk (by simp [beq_iff_eq, h'.symm])
      have : n ∈ rest := by
        rcases List.mem_cons.mp h with h' | h'
        · exact absurd h' hne
        · exact h'
      simp [lookupCol, hk, ih this]

theorem getCol_mkFrame (rs : List Record) (k : String) (h : k ∈ unionKeys rs) :
    (mkFrame rs).getCol k = some (rs.map (fun r => (r.lookup k).join)) := by
  unfold mkFrame Table.getCol
  exact lookupCol_keyMap (unionKeys rs) _ k h

theorem lookup_date_normalizeRecord (d : String) (dd : DailyData) :
    ((normalizeRecord d dd).lookup "date").join = some (Val.str d) := rfl

theorem getCol_mkFrame_date (entries : List (String × DailyData)) (h : entries ≠ []) :
    (mkFrame (entries.map (fun e => normalizeRecord e.1 e.2))).getCol "date" =
      some (entries.map (fun e => some (Val.str e.1))) := by
  cases entries with
  | nil => exact absurd rfl h
  | cons e rest =>
    rw [getCol_mkFrame]
    · rw [List.map_map]
      exact congrArg some (List.map_congr_left (fun a _ => lookup_date_normalizeRecord a.1 a.2))
    · rw [List.map_cons]
      apply mem_unionKeys_head
      unfold recordKeys normalizeRecord
      simp

theorem process_data_ok_entries (s : Snapshot) (entries : List (String × DailyData)) (t : Table)
    (hdata : s.data = some entries)
    (h : process_data (some s) = Except.ok t) :
    ∃ dcol parsed,
      (mkFrame (entries.map (fun e => normalizeRecord e.1 e.2))).getCol "date" = some dcol ∧
      optTraverse parseCell dcol = some parsed ∧
      t = finishTable (mkFrame (entries.map (fun e => normalizeRecord e.1 e.2))) parsed := by
  simp only [process_data, hdata] at h
  split at h
  · exact Except.noConfusion h
  · rename_i dcol hdcol
    split at h
    · exact Except.noConfusion h
    · rename_i parsed hparsed
      exact ⟨dcol, parsed, hdcol, hparsed, (Except.ok.inj h).symm⟩

theorem finishTable_eq (df : Table) (parsed : List ℚ) :
    finishTable df parsed =
      addCumulative
        (addCumulative ((df.setCol "date" (parsed.map (fun q => some (Val.num q)))).sortByDate)
          "fii_cash_net" "fii_cumulative_net")
        "dii_cash_net" "dii_cumulative_net" := rfl

theorem pairwise_date_finishTable (df : Table) (parsed : List ℚ) :
    ((finishTable df parsed).colD "date").Pairwise (fun a b => leKey a b = true) := by
  rw [finishTable_eq]
  rw [colD_addCumulative_ne _ _ _ _ (by decide)]
  rw [colD_addCumulative_ne _ _ _ _ (by decide)]
  rw [colD_sortByDate_of_has _ "date" _ (getCol_setCol_self df "date" _)]
  rw [colD_setCol_self]
  exact pairwise_applyPerm_sortPerm _

theorem getCol_fii_cum_finishTable (df : Table) (parsed : List ℚ)
    (h : (finishTable df parsed).hasCol "fii_cash_net" = true) :
    (finishTable df parsed).getCol "fii_cumulative_net" =
      some (cumsumCol ((finishTable df parsed).colD "fii_cash_net")) := by
  rw [finishTable_eq] at *
  have h2 : ((addCumulative ((df.setCol "date" (parsed.map (fun q => some (Val.num q)))).sortByDate)
      "fii_cash_net" "fii_cumulative_net")).hasCol "fii_cash_net" = true := by
    rw [hasCol_addCumulative_ne _ _ _ _ (by decide)] at h
    exact h
  have h3 : ((df.setCol "date" (parsed.map (fun q => some (Val.num q)))).sortByDate).hasCol
      "fii_cash_net" = true := by
    rw [hasCol_addCumulative_ne _ _ _ _ (by decide)] at h2
    exact h2
  rw [getCol_addCumulative_ne _ _ _ _ (by decide)]
  rw [colD_addCumulative_ne _ _ _ _ (by decide)]
  rw [colD_addCumulative_ne _ _ _ _ (by decide)]
  exact getCol_addCumulative_self _ _ _ h3

theorem getCol_dii_cum_finishTable (df : Table) (parsed : List ℚ)
    (h : (finishTable df parsed).hasCol "dii_cash_net" = true) :
    (finishTable df parsed).getCol "dii_cumulative_net" =
      some (cumsumCol ((finishTable df parsed).colD "dii_cash_net")) := by
  rw [finishTable_eq] at *
  have h2 : ((addCumulative ((df.setCol "date" (parsed.map (fun q => some (Val.num q)))).sortByDate)
      "fii_cash_net" "fii_cumulative_net")).hasCol "dii_cash_net" = true := by
    rw [hasCol_addCumulative_ne _ _ _ _ (by decide)] at h
    exact h
  rw [colD_addCumulative_ne _ _ _ _ (by decide)]
  exact getCol_addCumulative_self _ _ _ h2

theorem cols_ne_nil_of_hasCol (t : Table) (n : String) (h : t.hasCol n = true) :
    t.cols ≠ [] := by
  intro hc
  unfold Table.hasCol Table.getCol at h
  rw [hc] at h
  exact Bool.noConfusion h

theorem nrows_sorted_of_wfb (df : Table) (hwf : df.wfb = true)
    (hd : df.hasCol "date" = true) : (df.sortByDate).nrows = df.nrows := by
  rw [nrows_sortByDate df (cols_ne_nil_of_hasCol df "date" hd)]
  obtain ⟨c, hc⟩ := Option.isSome_iff_exists.mp hd
  unfold Table.colD
  rw [hc]
  exact length_of_wfb df "date" c hwf hc

theorem show_historical_trends_ok_eq (df : Table) (metric : String) (t : Table)
    (hm : df.hasCol metric = true)
    (h : show_historical_trends df metric = Except.ok t) :
    t = ma30Step df.sortByDate (ma7Step df.sortByDate metric) metric := by
  unfold show_historical_trends at h
  rw [if_pos hm] at h
  split at h
  · exact Except.noConfusion h
  · exact (Except.ok.inj h).symm

theorem show_historical_trends_ok_date (df : Table) (metric : String) (t : Table)
    (hm : df.hasCol metric = true)
    (h : show_historical_trends df metric = Except.ok t) : df.hasCol "date" = true := by
  unfold show_historical_trends at h
  rw [if_pos hm] at h
  split at h
  · exact Except.noConfusion h
  · rename_i c hc
    unfold Table.hasCol
    rw [hc]
    rfl

theorem getCol_ma30_other (s s1 : Table) (metric m : String) (hne : m ≠ "30_day_ma") :
    (ma30Step s s1 metric).getCol m = s1.getCol m := by
  unfold ma30Step
  split
  · exact getCol_setCol_ne _ _ _ _ hne
  · rfl

theorem getCol_ma7_self (s : Table) (metric : String) (h7 : 7 ≤ s.nrows) :
    (ma7Step s metric).getCol "7_day_ma" = some (rollingMean 7 (s.colD metric)) := by
  unfold ma7Step
  rw [if_pos h7]
  exact getCol_setCol_self _ _ _

theorem show_sentiment_ok (df t : Table) (hm : df.hasCol "fii_cash_view" = true)
    (h : show_sentiment_analysis df = Except.ok t) :
    ∃ dv,
      (df.setCol "fii_sentiment_score"
        ((df.colD "fii_cash_view").map viewScore)).getCol "dii_cash_view" = some dv ∧
      t = (df.setCol "fii_sentiment_score"
            ((df.colD "fii_cash_view").map viewScore)).setCol "dii_sentiment_score"
          (dv.map viewScore) := by
  unfold show_sentiment_analysis at h
  rw [if_pos hm] at h
  split at h
  · exact Except.noConfusion h
  · rename_i dv hdv
    exact ⟨dv, hdv, (Except.ok.inj h).symm⟩

theorem viewScore_eq_spec (v : Option Val) : viewScore v = viewScoreSpec v := by
  cases v with
  | none => rfl
  | some w =>
    cases w with
    | num q => rfl
    | rt q => rfl
    | str s =>
      by_cases hb : s = "BULLISH"
      · subst hb; rfl
      · by_cases hr : s = "BEARISH"
        · subst hr; rfl
        · have h2 : viewScoreSpec (some (Val.str s)) =
              if s = "BULLISH" then some (Val.num 1)
              else if s = "BEARISH" then some (Val.num (-1)) else none := rfl
          rw [h2, if_neg hb, if_neg hr]
          unfold viewScore
          rw [if_neg (by simp [hb]), if_neg (by simp [hr]), if_neg (by simp)]

/-! ### The claims -/

/-- C1: the spec says `calculate_correlations` computes Pearson over the
date-aligned rows where both values are present. The code instead calls
`dropna()` on each column independently and hands scipy the positionally
zipped remainders: at this input the code pairs day 3's FII net with day
2's index change, while only the day-1 pair is pairwise-complete. (When
the two columns have unequal missing counts the same code raises a
`ValueError` from `pearsonr` instead.) -/
theorem c1_code_eval :
    calculate_correlations cexT1 =
      Except.ok [("fii_net_vs_nifty", [(1, 5), (3, 1)])] ∧
    alignedPairs (cexT1.colD "fii_cash_net") (cexT1.colD "nifty_change_percent") =
      [(1, 5)] ∧
    ([((1 : ℚ), (5 : ℚ)), (3, 1)] : List (ℚ × ℚ)) ≠ [(1, 5)] :=
  ⟨by decide, by decide, by decide⟩

/-- C2: a falsy payload or one without a `data` key does yield the empty
table, but a payload whose `data` mapping is present and empty crashes:
the empty record list builds a frame with no columns at all, and
`df['date']` then raises `KeyError`, contradicting the documented
"empty snapshot yields an explicitly empty table, not an error". -/
theorem c2_code_eval :
    process_data (some ⟨some []⟩) = Except.error PErr.keyError ∧
    process_data (some ⟨none⟩) = Except.ok ⟨[]⟩ ∧
    process_data none = Except.ok ⟨[]⟩ :=
  ⟨by decide, by decide, by decide⟩

/-- C7 counterexample: this table yields exactly one date-aligned valid
pair, and the computation raises a `ValueError` (scipy refuses samples
shorter than two) instead of reporting an undefined/insufficient result. -/
theorem c7_counterexample :
    (alignedPairs (t7a.colD "fii_cash_net") (t7a.colD "nifty_change_percent")).length = 1 ∧
    calculate_correlations t7a = Except.error PErr.valueError :=
  ⟨by decide, by decide⟩

/-- C7 amended: whenever both columns exist and the FII net column holds
fewer than 2 present values, the computation raises a `ValueError` (it
never fabricates a zero and never reports an insufficiency marker). -/
theorem c7_amended (t : Table)
    (h1 : t.hasCol "fii_cash_net" = true)
    (h2 : t.hasCol "nifty_change_percent" = true)
    (hlt : (dropnaNum (t.colD "fii_cash_net")).length < 2) :
    calculate_correlations t = Except.error PErr.valueError := by
  have hcond : (t.hasCol "fii_cash_net" && t.hasCol "nifty_change_percent") = true := by
    rw [h1, h2]
    rfl
  have hp : pearsonrSample (dropnaNum (t.colD "fii_cash_net"))
      (dropnaNum (t.colD "nifty_change_percent")) = Except.error PErr.valueError := by
    unfold pearsonrSample
    by_cases hl : (dropnaNum (t.colD "fii_cash_net")).length =
        (dropnaNum (t.colD "nifty_change_percent")).length
    · rw [if_neg (not_not_intro hl), if_pos hlt]
    · rw [if_pos hl]
  have hce : corrEntry t "fii_cash_net" "fii_net_vs_nifty" = Except.error PErr.valueError := by
    unfold corrEntry
    rw [if_pos hcond, hp]
    rfl
  unfold calculate_correlations
  rw [hce]
  rfl

/-- C7 witness: a concrete table with both columns and an empty dropna
sample, at which the amended statement applies. -/
theorem c7_amended_witness :
    t7w.hasCol "fii_cash_net" = true ∧
    t7w.hasCol "nifty_change_percent" = true ∧
    (dropnaNum (t7w.colD "fii_cash_net")).length < 2 ∧
    calculate_correlations t7w = Except.error PErr.valueError :=
  ⟨by decide, by decide, by decide, c7_amended t7w (by decide) (by decide) (by decide)⟩

/-- C10: a table built by `process_data` from a snapshot whose records have
FII cash blocks but no DII blocks has `fii_cash_view` and lacks
`dii_cash_view`; the sentiment guard checks only `fii_cash_view`, so
`df['dii_cash_view']` raises `KeyError` instead of recovering the absence
as missing data. -/
theorem c10_sentiment_keyerror :
    (process_data (some snapC10)).bind show_sentiment_analysis = Except.error PErr.keyError ∧
    (process_data (some snapC10)).toOption.map (fun t => t.hasCol "fii_cash_view") = some true ∧
    (process_data (some snapC10)).toOption.map (fun t => t.hasCol "dii_cash_view") = some false :=
  ⟨by decide, by decide, by decide⟩

/-- C9 counterexample: the volatility routine writes its derived column
onto the very frame it was passed, so the caller-visible table gains a
`nifty_volatility` column — the analytics operations are not all pure in
the claimed sense. -/
theorem c9_counterexample :
    show_volatility_analysis vT9 ≠ vT9 ∧
    vT9.hasCol "nifty_volatility" = false ∧
    (show_volatility_analysis vT9).hasCol "nifty_volatility" = true :=
  ⟨by decide, by decide, by decide⟩

/-- C9 amended: the in-place writes are limited to the derived columns:
volatility only (re)writes `nifty_volatility` and sentiment only the two
sentiment-score columns; every other column of the frame passed in is
left exactly as it was (and the rolling-trend and correlation routines
never write the caller's frame at all). -/
theorem c9_amended :
    (∀ (df : Table) (n : String), n ≠ "nifty_volatility" →
      (show_volatility_analysis df).getCol n = df.getCol n) ∧
    (∀ (df t : Table) (n : String), show_sentiment_analysis df = Except.ok t →
      n ≠ "fii_sentiment_score" → n ≠ "dii_sentiment_score" →
      t.getCol n = df.getCol n) := by
  constructor
  · intro df n hn
    unfold show_volatility_analysis
    split
    · exact getCol_setCol_ne _ _ _ _ hn
    · rfl
  · intro df t n h hn1 hn2
    by_cases hm : df.hasCol "fii_cash_view" = true
    · obtain ⟨dv, _, ht⟩ := show_sentiment_ok df t hm h
      subst ht
      rw [getCol_setCol_ne _ _ _ _ hn2, getCol_setCol_ne _ _ _ _ hn1]
    · unfold show_sentiment_analysis at h
      rw [if_neg hm] at h
      rw [← Except.ok.inj h]

/-- C9 witness: concrete frames at which both amended statements apply:
the untouched column of the volatility call and the untouched columns of
a successful sentiment call. -/
theorem c9_amended_witness :
    (("nifty_change_percent" : String) ≠ "nifty_volatility" ∧
      (show_volatility_analysis vT9).getCol "nifty_change_percent" =
        vT9.getCol "nifty_change_percent") ∧
    (show_sentiment_analysis c9sDf = Except.ok c9sT ∧
      ("nifty" : String) ≠ "fii_sentiment_score" ∧
      ("nifty" : String) ≠ "dii_sentiment_score" ∧
      c9sT.getCol "nifty" = c9sDf.getCol "nifty") := by
  refine ⟨⟨by decide, ?_⟩, ⟨by decide, by decide, by decide, ?_⟩⟩
  · exact c9_amended.1 vT9 "nifty_change_percent" (by decide)
  · exact c9_amended.2 c9sDf c9sT "nifty" (by decide) (by decide) (by decide)

/-- C4 counterexample: an empty-string view value maps to a missing score,
not to `0` — the dict mapper has no key for it, so pandas emits NaN. -/
theorem c4_counterexample :
    (show_sentiment_analysis cexT4).toOption.map (fun t => t.colD "fii_sentiment_score") =
      some [none] ∧
    (show_sentiment_analysis cexT4).toOption.map (fun t => t.colD "fii_sentiment_score") ≠
      some [some (Val.num 0)] :=
  ⟨by decide, by decide⟩

/-- C4 amended: the sentiment score is a total row-wise map, but its value
on anything other than the three dict keys is missing rather than `0`:
`BULLISH` maps to `+1`, `BEARISH` to `-1`, an absent value to `0`, and any
other string — the empty string included — to a missing cell. -/
theorem c4_amended (df t : Table)
    (h : show_sentiment_analysis df = Except.ok t)
    (hm : df.hasCol "fii_cash_view" = true) :
    t.colD "fii_sentiment_score" = (df.colD "fii_cash_view").map viewScoreSpec ∧
    t.colD "dii_sentiment_score" = (df.colD "dii_cash_view").map viewScoreSpec ∧
    viewScoreSpec none = some (Val.num 0) ∧
    viewScoreSpec (some (Val.str "BULLISH")) = some (Val.num 1) ∧
    viewScoreSpec (some (Val.str "BEARISH")) = some (Val.num (-1)) ∧
    (∀ s : String, s ≠ "BULLISH" → s ≠ "BEARISH" →
      viewScoreSpec (some (Val.str s)) = none) := by
  obtain ⟨dv, hdv, ht⟩ := show_sentiment_ok df t hm h
  subst ht
  refine ⟨?_, ?_, rfl, rfl, rfl, ?_⟩
  · rw [colD_setCol_ne _ _ _ _ (by decide), colD_setCol_self]
    exact List.map_congr_left (fun a _ => viewScore_eq_spec a)
  · rw [colD_setCol_self]
    have hdv2 : df.getCol "dii_cash_view" = some dv := by
      rw [← getCol_setCol_ne df "fii_sentiment_score" "dii_cash_view"
        ((df.colD "fii_cash_view").map viewScore) (by decide)]
      exact hdv
    have : df.colD "dii_cash_view" = dv := by
      unfold Table.colD
      rw [hdv2]
      rfl
    rw [this]
    exact List.map_congr_left (fun a _ => viewScore_eq_spec a)
  · intro s hb hr
    have h2 : viewScoreSpec (some (Val.str s)) =
        if s = "BULLISH" then some (Val.num 1)
        else if s = "BEARISH" then some (Val.num (-1)) else none := rfl
    rw [h2, if_neg hb, if_neg hr]

/-- C4 witness: a frame exercising all four sentiment cases, at which the
amended row-wise map statement applies. -/
theorem c4_amended_witness :
    show_sentiment_analysis c4wDf = Except.ok c4wT ∧
    c4wDf.hasCol "fii_cash_view" = true ∧
    c4wT.colD "fii_sentiment_score" = (c4wDf.colD "fii_cash_view").map viewScoreSpec := by
  refine ⟨by decide, by decide, ?_⟩
  exact (c4_amended c4wDf c4wT (by decide) (by decide)).1

/-- C3 counterexample: in the table built from `snapC3` the FII net column
exists and row 1 (the middle date) has a missing net value, and the
derived cumulative column is missing at that row as well — pandas
`cumsum` skips NaN in the running sum but leaves NaN in place, so the
cumulative column is not present at every row as claimed. -/
theorem c3_counterexample :
    (process_data (some snapC3)).toOption.map (fun t => t.hasCol "fii_cash_net") =
      some true ∧
    (process_data (some snapC3)).toOption.map
      (fun t => (t.colD "fii_cash_net").get? 1) = some (some none) ∧
    (process_data (some snapC3)).toOption.map
      (fun t => (t.colD "fii_cumulative_net").get? 1) = some (some none) :=
  ⟨by decide, by decide, by decide⟩

/-- C3 amended: on every table the builder returns, the cumulative column
is the skip-missing running sum of the net column: at each row whose own
net value is present it holds the sum of the present net values up to and
including that row (missing rows contribute nothing), and at each row
whose net value is missing the cumulative value is itself missing. -/
theorem c3_amended (raw : Option Snapshot) (t : Table)
    (h : process_data raw = Except.ok t) :
    (t.hasCol "fii_cash_net" = true → ∀ i, i < (t.colD "fii_cash_net").length →
      (t.colD "fii_cumulative_net").get? i = some (cumSpec (t.colD "fii_cash_net") i)) ∧
    (t.hasCol "dii_cash_net" = true → ∀ i, i < (t.colD "dii_cash_net").length →
      (t.colD "dii_cumulative_net").get? i = some (cumSpec (t.colD "dii_cash_net") i)) := by
  have hempty : ∀ (ht : t = (⟨[]⟩ : Table)),
      (t.hasCol "fii_cash_net" = true → ∀ i, i < (t.colD "fii_cash_net").length →
        (t.colD "fii_cumulative_net").get? i = some (cumSpec (t.colD "fii_cash_net") i)) ∧
      (t.hasCol "dii_cash_net" = true → ∀ i, i < (t.colD "dii_cash_net").length →
        (t.colD "dii_cumulative_net").get? i = some (cumSpec (t.colD "dii_cash_net") i)) := by
    intro ht
    subst ht
    exact ⟨fun hc => Bool.noConfusion hc, fun hc => Bool.noConfusion hc⟩
  match raw with
  | none =>
    exact hempty (Except.ok.inj h).symm
  | some s =>
    match hs : s.data with
    | none =>
      simp only [process_data, hs] at h
      exact hempty (Except.ok.inj h).symm
    | some entries =>
      obtain ⟨dcol, parsed, hdcol, hparsed, ht⟩ := process_data_ok_entries s entries t hs h
      subst ht
      constructor
      · intro hfii i hi
        have hg := getCol_fii_cum_finishTable _ parsed hfii
        unfold Table.colD
        rw [hg]
        exact cumsumCol_get? _ i hi
      · intro hdii i hi
        have hg := getCol_dii_cum_finishTable _ parsed hdii
        unfold Table.colD
        rw [hg]
        exact cumsumCol_get? _ i hi

/-- C3 witness: the amended cumulative-column statement applied to the
table built from `snapC3`, at the first row. -/
theorem c3_amended_witness :
    process_data (some snapC3) = Except.ok tblC3 ∧
    tblC3.hasCol "fii_cash_net" = true ∧
    0 < (tblC3.colD "fii_cash_net").length ∧
    (tblC3.colD "fii_cumulative_net").get? 0 =
      some (cumSpec (tblC3.colD "fii_cash_net") 0) := by
  refine ⟨rfl, by decide, by decide, ?_⟩
  exact (c3_amended (some snapC3) tblC3 rfl).1 (by decide) 0 (by decide)

/-- C5 counterexample: seven rows, one missing value inside the trailing
7-row window: the code's rolling average at the last row is missing (the
default `min_periods` equals the window, so pandas does not shrink the
window), while the spec's shrinking-window mean of the six present values
is `1`. -/
theorem c5_counterexample :
    (show_historical_trends cexT5 "fii_cash_net").toOption.map
      (fun t => (t.colD "7_day_ma").get? 6) = some (some none) ∧
    shrinkMean 7 (cexT5.colD "fii_cash_net") 6 = some (Val.num 1) := by
  constructor
  · decide
  · show (if (6 : ℕ) = 0 then none
      else some (Val.num ((List.replicate 6 (1 : ℚ)).sum / ((6 : ℕ) : ℚ)))) = some (Val.num 1)
    rw [if_neg (by decide)]
    norm_num [List.sum_replicate]

/-- C5 amended: within `show_historical_trends` the 7-day column of the
plotted frame is the pandas rolling mean of the sorted metric column, and
that rolling mean does not shrink its window: at any position with a full
trailing window it equals the arithmetic mean of the seven values when
all are present, and it is missing whenever any value in the window is
missing (a missing value is never coerced to zero). -/
theorem c5_amended :
    (∀ (df : Table) (metric : String) (t : Table),
      df.wfb = true → df.hasCol metric = true →
      show_historical_trends df metric = Except.ok t → 7 ≤ df.nrows →
      t.getCol "7_day_ma" = some (rollingMean 7 ((df.sortByDate).colD metric))) ∧
    (∀ (c : Col) (i : ℕ), i < c.length → 7 ≤ i + 1 →
      ((∀ v ∈ windowVals 7 c i, (numOf v).isSome = true) →
        (rollingMean 7 c).get? i =
          some (some (Val.num (((windowVals 7 c i).filterMap numOf).sum / (7 : ℚ))))) ∧
      ((∃ v ∈ windowVals 7 c i, numOf v = none) →
        (rollingMean 7 c).get? i = some none)) := by
  constructor
  · intro df metric t hwf hm h h7
    have hd := show_historical_trends_ok_date df metric t hm h
    have ht := show_historical_trends_ok_eq df metric t hm h
    subst ht
    have hsn : (df.sortByDate).nrows = df.nrows := nrows_sorted_of_wfb df hwf hd
    rw [getCol_ma30_other _ _ _ _ (by decide)]
    exact getCol_ma7_self _ _ (by omega)
  · intro c i hi hw
    exact ⟨fun hall => rollingMean_get?_full 7 c i hi hw hall,
           fun hex => rollingMean_get?_missing 7 c i hi hex⟩

/-- C5 witness: the amended statement applied to a seven-row frame with
every value present, and to a seven-cell column with one missing value. -/
theorem c5_amended_witness :
    (c5wDf.wfb = true ∧ c5wDf.hasCol "fii_cash_net" = true ∧
      show_historical_trends c5wDf "fii_cash_net" = Except.ok c5wT ∧
      7 ≤ c5wDf.nrows ∧
      c5wT.getCol "7_day_ma" =
        some (rollingMean 7 ((c5wDf.sortByDate).colD "fii_cash_net"))) ∧
    (6 < c5wMissCol.length ∧ 7 ≤ 6 + 1 ∧
      (∃ v ∈ windowVals 7 c5wMissCol 6, numOf v = none) ∧
      (rollingMean 7 c5wMissCol).get? 6 = some none) := by
  refine ⟨⟨by decide, by decide, rfl, by decide, ?_⟩, ⟨by decide, by decide, by decide, ?_⟩⟩
  · exact c5_amended.1 c5wDf "fii_cash_net" c5wT (by decide) (by decide) rfl (by decide)
  · exact (c5_amended.2 c5wMissCol 6 (by decide) (by decide)).2 (by decide)

/-- C6: the moving-average gate of `show_historical_trends`: with fewer
than `w` rows the derived `w`-day series is not created at all (for both
`w = 7` and `w = 30`), and on a frame of exactly 7 rows whose metric
column has no missing values, the 7-day rolling average at the last row is
the simple mean of all 7 values. -/
theorem c6_rolling_gate (df : Table) (metric : String) (t : Table)
    (hwf : df.wfb = true) (hm : df.hasCol metric = true)
    (h7c : df.hasCol "7_day_ma" = false) (h30c : df.hasCol "30_day_ma" = false)
    (h : show_historical_trends df metric = Except.ok t) :
    (df.nrows < 7 → t.hasCol "7_day_ma" = false ∧ t.hasCol "30_day_ma" = false) ∧
    (df.nrows < 30 → t.hasCol "30_day_ma" = false) ∧
    (df.nrows = 7 →
      (∀ v ∈ (df.sortByDate).colD metric, (numOf v).isSome = true) →
      (t.colD "7_day_ma").get? 6 =
        some (some (Val.num ((((df.sortByDate).colD metric).filterMap numOf).sum / (7 : ℚ))))) := by
  have hd := show_historical_trends_ok_date df metric t hm h
  have ht := show_historical_trends_ok_eq df metric t hm h
  subst ht
  have hsn : (df.sortByDate).nrows = df.nrows := nrows_sorted_of_wfb df hwf hd
  refine ⟨?_, ?_, ?_⟩
  · intro hlt
    have hma30 : ma30Step (df.sortByDate) (ma7Step (df.sortByDate) metric) metric =
        ma7Step (df.sortByDate) metric := by
      unfold ma30Step
      rw [if_neg (by omega)]
    have hma7 : ma7Step (df.sortByDate) metric = df.sortByDate := by
      unfold ma7Step
      rw [if_neg (by omega)]
    rw [hma30, hma7, hasCol_sortByDate, hasCol_sortByDate]
    exact ⟨h7c, h30c⟩
  · intro hlt
    have hma30 : ma30Step (df.sortByDate) (ma7Step (df.sortByDate) metric) metric =
        ma7Step (df.sortByDate) metric := by
      unfold ma30Step
      rw [if_neg (by omega)]
    rw [hma30]
    by_cases h7le : 7 ≤ (df.sortByDate).nrows
    · have hma7 : ma7Step (df.sortByDate) metric =
          (df.sortByDate).setCol "7_day_ma" (rollingMean 7 ((df.sortByDate).colD metric)) := by
        unfold ma7Step
        rw [if_pos h7le]
      rw [hma7, hasCol_setCol_ne _ _ _ _ (by decide), hasCol_sortByDate]
      exact h30c
    · have hma7 : ma7Step (df.sortByDate) metric = df.sortByDate := by
        unfold ma7Step
        rw [if_neg h7le]
      rw [hma7, hasCol_sortByDate]
      exact h30c
  · intro h7 hall
    have hma30 : ma30Step (df.sortByDate) (ma7Step (df.sortByDate) metric) metric =
        ma7Step (df.sortByDate) metric := by
      unfold ma30Step
      rw [if_neg (by omega)]
    have hma7 : ma7Step (df.sortByDate) metric =
        (df.sortByDate).setCol "7_day_ma" (rollingMean 7 ((df.sortByDate).colD metric)) := by
      unfold ma7Step
      rw [if_pos (by omega)]
    rw [hma30, hma7, colD_setCol_self]
    have hlen : ((df.sortByDate).colD metric).length = 7 := by
      obtain ⟨cm, hcm⟩ := Option.isSome_iff_exists.mp hm
      rw [colD_sortByDate_of_has df metric cm hcm, length_applyPerm, length_sortPerm]
      obtain ⟨cd, hcd⟩ := Option.isSome_iff_exists.mp hd
      have hcdd : df.colD "date" = cd := by
        unfold Table.colD
        rw [hcd]
        rfl
      rw [hcdd, length_of_wfb df "date" cd hwf hcd, h7]
    have hwv : windowVals 7 ((df.sortByDate).colD metric) 6 = (df.sortByDate).colD metric := by
      unfold windowVals
      have h0 : (6 + 1 : ℕ) - 7 = 0 := by omega
      rw [h0, List.drop_zero]
      exact List.take_of_length_le (by omega)
    have hfull := rollingMean_get?_full 7 ((df.sortByDate).colD metric) 6
      (by omega) (by omega) (by rw [hwv]; exact hall)
    rw [hwv] at hfull
    exact hfull

/-- C6 witness: a frame of exactly seven rows with every metric value
present, at which both the 30-day-absence gate and the last-row mean
statement apply. -/
theorem c6_rolling_gate_witness :
    c5wDf.wfb = true ∧ c5wDf.hasCol "fii_cash_net" = true ∧
    c5wDf.hasCol "7_day_ma" = false ∧ c5wDf.hasCol "30_day_ma" = false ∧
    show_historical_trends c5wDf "fii_cash_net" = Except.ok c6wT ∧
    c5wDf.nrows < 30 ∧ c6wT.hasCol "30_day_ma" = false ∧
    c5wDf.nrows = 7 ∧
    (c6wT.colD "7_day_ma").get? 6 =
      some (some (Val.num ((((c5wDf.sortByDate).colD "fii_cash_net").filterMap numOf).sum /
        (7 : ℚ)))) := by
  refine ⟨by decide, by decide, by decide, by decide, rfl, by decide, ?_, by decide, ?_⟩
  · exact (c6_rolling_gate c5wDf "fii_cash_net" c6wT (by decide) (by decide) (by decide)
      (by decide) rfl).2.1 (by decide)
  · exact (c6_rolling_gate c5wDf "fii_cash_net" c6wT (by decide) (by decide) (by decide)
      (by decide) rfl).2.2 (by decide) (by decide)

/-- C8 counterexample: a snapshot whose `data` mapping is present but holds
no dates has every date string (vacuously) parseable, yet the build does
not succeed — it raises a `KeyError` — so "every snapshot whose date
strings all parse builds successfully" fails as stated. -/
theorem c8_counterexample :
    (∀ p ∈ ([] : List (String × DailyData)), (parseDate p.1).isSome = true) ∧
    process_data (some ⟨some []⟩) = Except.error PErr.keyError :=
  ⟨by decide, by decide⟩

/-- C8 amended: a snapshot with at least one unparseable date fails the
whole build with the malformed-date error and produces no table at all;
and a snapshot with at least one record whose dates all parse builds
successfully, with its date column sorted ascending. -/
theorem c8_amended :
    (∀ (s : Snapshot) (entries : List (String × DailyData)) (d : String) (dd : DailyData),
      s.data = some entries → (d, dd) ∈ entries → parseDate d = none →
      process_data (some s) = Except.error PErr.malformedDate) ∧
    (∀ (s : Snapshot) (entries : List (String × DailyData)),
      s.data = some entries → entries ≠ [] →
      (∀ p ∈ entries, (parseDate p.1).isSome = true) →
      ∃ t, process_data (some s) = Except.ok t ∧
        (t.colD "date").Pairwise (fun a b => leKey a b = true)) := by
  constructor
  · intro s entries d dd hdata hmem hbad
    have hne : entries ≠ [] := by
      intro he
      rw [he] at hmem
      exact List.not_mem_nil _ hmem
    have hdcol := getCol_mkFrame_date entries hne
    have htrav : optTraverse parseCell (entries.map (fun e => some (Val.str e.1))) = none := by
      apply optTraverse_none_of_mem _ _ (some (Val.str d))
      · exact List.mem_map.mpr ⟨(d, dd), hmem, rfl⟩
      · show (parseDate d).map (fun n => ((n : ℚ))) = none
        rw [hbad]
        rfl
    simp only [process_data, hdata, hdcol, htrav]
  · intro s entries hdata hne hall
    have hdcol := getCol_mkFrame_date entries hne
    have hallcells : ∀ v ∈ entries.map (fun e => some (Val.str e.1)),
        (parseCell v).isSome = true := by
      intro v hv
      obtain ⟨e, he, rfl⟩ := List.mem_map.mp hv
      show ((parseDate e.1).map (fun n => ((n : ℚ)))).isSome = true
      obtain ⟨n, hn⟩ := Option.isSome_iff_exists.mp (hall e he)
      rw [hn]
      rfl
    obtain ⟨parsed, hparsed⟩ := optTraverse_isSome_of_all _ _ hallcells
    refine ⟨finishTable (mkFrame (entries.map (fun e => normalizeRecord e.1 e.2))) parsed,
      ?_, ?_⟩
    · simp only [process_data, hdata, hdcol, hparsed]
    · exact pairwise_date_finishTable _ _

/-- C8 witness: the failure half applied to a snapshot with the date key
`banana`, and the success half applied to two parseable dates arriving
out of order. -/
theorem c8_amended_witness :
    (snapC8bad.data = some [("banana", ddBlank)] ∧
      ("banana", ddBlank) ∈ [("banana", ddBlank)] ∧
      parseDate "banana" = none ∧
      process_data (some snapC8bad) = Except.error PErr.malformedDate) ∧
    (snapC8good.data = some [("2025-03-07", ddBlank), ("2025-03-06", ddBlank)] ∧
      ([("2025-03-07", ddBlank), ("2025-03-06", ddBlank)] :
        List (String × DailyData)) ≠ [] ∧
      (∀ p ∈ ([("2025-03-07", ddBlank), ("2025-03-06", ddBlank)] :
        List (String × DailyData)), (parseDate p.1).isSome = true) ∧
      ∃ t, process_data (some snapC8good) = Except.ok t ∧
        (t.colD "date").Pairwise (fun a b => leKey a b = true)) := by
  refine ⟨⟨rfl, by decide, by decide, ?_⟩, ⟨rfl, by decide, by decide, ?_⟩⟩
  · exact c8_amended.1 snapC8bad [("banana", ddBlank)] "banana" ddBlank rfl
      (by decide) (by decide)
  · exact c8_amended.2 snapC8good [("2025-03-07", ddBlank), ("2025-03-06", ddBlank)] rfl
      (by decide) (by decide)
